import Mathlib

/-
  Shallow embedding of src/GTMatrix_Update.c (Buzz_Matrix / GTMatrix update path).

  C `int` values are modelled as Lean `Int`; the claims under study are about
  control flow and index arithmetic far below any overflow boundary, so no
  wrap-around modelling is needed.  Pointers are modelled as byte addresses
  (`Int`).  MPI transport calls (window lock/unlock, MPI_Accumulate, datatype
  commit/free) are recorded as events in a trace rather than performed.
-/

namespace GTM

/-- MPI reduce operation accepted by the update path: MPI_SUM (accumulate)
or MPI_REPLACE (put). -/
inductive MPIOp where
  | sum : MPIOp
  | replace : MPIOp
  deriving DecidableEq, Repr

/-- A transfer descriptor (MPI derived datatype) as used by the update path:
either one of the two cached small-block descriptor families, indexed by
`block_dt_id = (row_num - 1) * MPI_DT_SB_DIM_MAX + (col_num - 1)`, or an
ephemeral strided descriptor built by MPI_Type_vector(row_num, col_num, ld). -/
inductive Descriptor where
  | sbNostride (block_dt_id : Int) : Descriptor
  | sbStride (block_dt_id : Int) : Descriptor
  | vector (row_num col_num ld : Int) : Descriptor
  deriving DecidableEq, Repr

/-- The arguments of one MPI_Accumulate call issued by the update path. -/
structure AccCall where
  src_ptr : Int
  src_desc : Descriptor
  dst_rank : Nat
  dst_pos : Int
  dst_desc : Descriptor
  op : MPIOp
  deriving DecidableEq, Repr

/-- One entry of a per-destination request queue (GTM_Req_Vector element). -/
structure ReqEntry where
  op : MPIOp
  row_start : Int
  row_num : Int
  col_start : Int
  col_num : Int
  src_buf : Int
  src_buf_ld : Int
  deriving DecidableEq, Repr

/-- Transport-level events recorded by the embedding in program order. -/
inductive Event where
  | winLock (rank : Nat) : Event
  | winUnlock (rank : Nat) : Event
  | typeCommit (d : Descriptor) : Event
  | typeFree (d : Descriptor) : Event
  | acc (c : AccCall) : Event
  deriving DecidableEq, Repr

/-- Access mode argument of GTM_updateBlock (GTMatrix_Typedef.h):
BLOCKING_ACCESS or BATCH_ACCESS. -/
inductive AccessMode where
  | blocking : AccessMode
  | batch : AccessMode
  deriving DecidableEq, Repr

/-- The GTMatrix handle: the configuration fields read by the update path and
the mutable state it writes (per-destination request queues and the
batch-epoch flags).  Displacement tables are total functions on block
indices; only indices `0 .. r_blocks` (resp. `c_blocks`) are meaningful. -/
@[ext]
structure GTMatrix where
  nrows : Int
  ncols : Int
  r_blocks : Nat
  c_blocks : Nat
  r_displs : Nat → Int
  c_displs : Nat → Int
  ld_local : Int
  unit_size : Int
  comm_size : Nat
  my_rank : Nat
  req_vec : Nat → List ReqEntry
  is_batch_updating : Bool
  is_batch_getting : Bool

/-- Modelled from the spec: `MPI_DT_SB_DIM_MAX` is the cached-shape ceiling
(a small fixed bound, defined in GTMatrix.h which is not part of this
repository slice); cached descriptors exist for row/column counts up to it.
The concrete value is irrelevant to every proof below. -/
def MPI_DT_SB_DIM_MAX : Int := 16

/-- Embedding of `GTM_updateBlockToProcess` (GTMatrix_Update.c lines 25-88).
Returns `none` on the sanity-check early return (silent no-op, no transport
call), otherwise `some (c, eph)` where `c` is the single MPI_Accumulate call
issued and `eph` is the list of ephemeral descriptors committed before the
call and freed right after it, in commit order. -/
def GTM_updateBlockToProcess (gt : GTMatrix) (dst_rank : Nat) (op : MPIOp)
    (row_start row_num col_start col_num : Int)
    (src_buf src_buf_ld : Int) : Option (AccCall × List Descriptor) :=
  let row_end := row_start + row_num
  let col_end := col_start + col_num
  let dst_rowblk := dst_rank / gt.c_blocks
  let dst_colblk := dst_rank % gt.c_blocks
  let dst_blk_ld := gt.ld_local
  let dst_row_start := gt.r_displs dst_rowblk
  let dst_col_start := gt.c_displs dst_colblk
  let dst_row_end := gt.r_displs (dst_rowblk + 1)
  let dst_col_end := gt.c_displs (dst_colblk + 1)
  if (row_start < dst_row_start) ∨ (col_start < dst_col_start) ∨
     (row_end > dst_row_end) ∨ (col_end > dst_col_end) ∨
     (row_num * col_num = 0) then none
  else
    let src_ptr := src_buf
    let dst_pos := (row_start - dst_row_start) * dst_blk_ld +
                   (col_start - dst_col_start)
    if row_num ≤ MPI_DT_SB_DIM_MAX ∧ col_num ≤ MPI_DT_SB_DIM_MAX then
      let block_dt_id := (row_num - 1) * MPI_DT_SB_DIM_MAX + (col_num - 1)
      let dst_dt := Descriptor.sbStride block_dt_id
      if col_num = src_buf_ld then
        some (⟨src_ptr, Descriptor.sbNostride block_dt_id, dst_rank,
               dst_pos, dst_dt, op⟩, [])
      else if gt.ld_local = src_buf_ld then
        some (⟨src_ptr, dst_dt, dst_rank, dst_pos, dst_dt, op⟩, [])
      else
        let rcv_dt := Descriptor.vector row_num col_num src_buf_ld
        some (⟨src_ptr, rcv_dt, dst_rank, dst_pos, dst_dt, op⟩, [rcv_dt])
    else
      let dst_dt := Descriptor.vector row_num col_num dst_blk_ld
      let rcv_dt := Descriptor.vector row_num col_num src_buf_ld
      some (⟨src_ptr, rcv_dt, dst_rank, dst_pos, dst_dt, op⟩, [dst_dt, rcv_dt])

/-- The event trace of one `GTM_updateBlockToProcess` call: ephemeral
descriptor commits, the single MPI_Accumulate, then the frees; empty on the
sanity-check no-op. -/
def GTM_updateBlockToProcessEvents (gt : GTMatrix) (dst_rank : Nat) (op : MPIOp)
    (row_start row_num col_start col_num : Int)
    (src_buf src_buf_ld : Int) : List Event :=
  match GTM_updateBlockToProcess gt dst_rank op row_start row_num
      col_start col_num src_buf src_buf_ld with
  | none => []
  | some (c, eph) =>
      (eph.map Event.typeCommit) ++ [Event.acc c] ++ (eph.map Event.typeFree)

/-- True exactly for MPI_Accumulate events. -/
def Event.isAcc : Event → Bool
  | Event.acc _ => true
  | _ => false

/-- Embedding of the owning-block search loops of `GTM_updateBlock`
(GTMatrix_Update.c lines 119-132): scan block indices `0 .. nblocks-1` and
record the last index `i` whose half-open interval
`[displs i, displs (i+1))` contains `x`.  The C variable is left
uninitialized when no index matches; this is modelled by `none`. -/
def lastBlkContaining (displs : Nat → Int) (nblocks : Nat) (x : Int) : Option Nat :=
  (List.range nblocks).foldl
    (fun acc i => if displs i ≤ x ∧ x < displs (i + 1) then some i else acc) none

/-- Modelled from the spec: `getRectIntersection` (declared in utils.h; its
implementation is not part of this repository slice) computes the exact
intersection of two closed rectangles given as
(row start, row end, column start, column end), and a flag that is set
exactly when the intersection is non-empty. -/
def getRectIntersection (xs xe ys ye xs2 xe2 ys2 ye2 : Int) :
    Bool × Int × Int × Int × Int :=
  let rs := max xs xs2
  let re := min xe xe2
  let cs := max ys ys2
  let ce := min ye ye2
  ((decide (rs ≤ re) && decide (cs ≤ ce)), rs, re, cs, ce)

/-- One iteration of the routing double loop of `GTM_updateBlock`
(lines 136-156): the destination rank, the intersection flag and bounds,
and the advanced source pointer, for one (blk_r, blk_c) pair. -/
structure RouteTask where
  dst_rank : Nat
  need_to_fetch : Bool
  blk_r_s : Int
  blk_r_e : Int
  blk_c_s : Int
  blk_c_e : Int
  blk_ptr : Int
  deriving DecidableEq, Repr

/-- Body of the routing double loop of `GTM_updateBlock` (lines 138-156),
for one (blk_r, blk_c) pair: destination region corners, destination rank,
intersection with the requested rectangle, and source-pointer advance. -/
def routeTaskFor (gt : GTMatrix)
    (row_start row_end col_start col_end src_buf src_buf_ld : Int)
    (blk_r blk_c : Nat) : RouteTask :=
  let dst_r_s := gt.r_displs blk_r
  let dst_r_e := gt.r_displs (blk_r + 1) - 1
  let dst_c_s := gt.c_displs blk_c
  let dst_c_e := gt.c_displs (blk_c + 1) - 1
  let dst_rank := blk_r * gt.c_blocks + blk_c
  let res := getRectIntersection dst_r_s dst_r_e dst_c_s dst_c_e
      row_start row_end col_start col_end
  let row_dist := res.2.1 - row_start
  let col_dist := res.2.2.2.1 - col_start
  { dst_rank := dst_rank
    need_to_fetch := res.1
    blk_r_s := res.2.1
    blk_r_e := res.2.2.1
    blk_c_s := res.2.2.2.1
    blk_c_e := res.2.2.2.2
    blk_ptr := src_buf + (row_dist * src_buf_ld + col_dist) * gt.unit_size }

/-- The sequence of routing-loop iterations of `GTM_updateBlock`
(lines 115-156), in loop order: block rows `s_blk_r .. e_blk_r` outer,
block columns `s_blk_c .. e_blk_c` inner. -/
def GTM_updateBlock_tasks (gt : GTMatrix)
    (row_start row_num col_start col_num src_buf src_buf_ld : Int) :
    List RouteTask :=
  let row_end := row_start + row_num - 1
  let col_end := col_start + col_num - 1
  let s_blk_r := (lastBlkContaining gt.r_displs gt.r_blocks row_start).getD 0
  let e_blk_r := (lastBlkContaining gt.r_displs gt.r_blocks row_end).getD 0
  let s_blk_c := (lastBlkContaining gt.c_displs gt.c_blocks col_start).getD 0
  let e_blk_c := (lastBlkContaining gt.c_displs gt.c_blocks col_end).getD 0
  ((List.range (e_blk_r + 1 - s_blk_r)).map (fun k => s_blk_r + k)).flatMap
    (fun blk_r =>
      ((List.range (e_blk_c + 1 - s_blk_c)).map (fun k => s_blk_c + k)).map
        (routeTaskFor gt row_start row_end col_start col_end
          src_buf src_buf_ld blk_r))

/-- Modelled from the spec: `GTM_pushToReqVector` (GTMatrix_Req_Vector.c, not
part of this repository slice) appends one Request Entry to the given
destination's growable request queue; capacity management is invisible at
this level. -/
def GTM_pushToReqVector (gt : GTMatrix) (rank : Nat) (e : ReqEntry) : GTMatrix :=
  { gt with req_vec := fun r => if r = rank then gt.req_vec rank ++ [e]
                                else gt.req_vec r }

/-- Modelled from the spec: `GTM_resetReqVector` (GTMatrix_Req_Vector.c, not
part of this repository slice) truncates the given destination's request
queue to empty, retaining capacity. -/
def GTM_resetReqVector (gt : GTMatrix) (rank : Nat) : GTMatrix :=
  { gt with req_vec := fun r => if r = rank then [] else gt.req_vec r }

/-- One iteration of the dispatch part of the routing loop of
`GTM_updateBlock` (lines 151-175): derive the sub-block shape from the
intersection, then either issue a locked immediate update (BLOCKING_ACCESS)
or enqueue a request entry (BATCH_ACCESS). -/
def GTM_updateBlock_step (gt : GTMatrix) (op : MPIOp) (src_buf_ld : Int)
    (access_mode : AccessMode) (t : RouteTask) : GTMatrix × List Event :=
  let blk_r_num := t.blk_r_e - t.blk_r_s + 1
  let blk_c_num := t.blk_c_e - t.blk_c_s + 1
  match access_mode with
  | AccessMode.blocking =>
      (gt, [Event.winLock t.dst_rank] ++
        GTM_updateBlockToProcessEvents gt t.dst_rank op t.blk_r_s blk_r_num
          t.blk_c_s blk_c_num t.blk_ptr src_buf_ld ++
        [Event.winUnlock t.dst_rank])
  | AccessMode.batch =>
      (GTM_pushToReqVector gt t.dst_rank
        ⟨op, t.blk_r_s, blk_r_num, t.blk_c_s, blk_c_num, t.blk_ptr, src_buf_ld⟩,
       [])

/-- Embedding of `GTM_updateBlock` (GTMatrix_Update.c lines 101-178).
Returns `some (gt', trace)` on normal completion — the sanity-check early
return yields `some (gt, [])` — and `none` when the fatal
`assert(need_to_fetch == 1)` on line 150 fires. -/
def GTM_updateBlock (gt : GTMatrix) (op : MPIOp)
    (row_start row_num col_start col_num : Int)
    (src_buf src_buf_ld : Int) (access_mode : AccessMode) :
    Option (GTMatrix × List Event) :=
  if (row_start < 0) ∨ (col_start < 0) ∨
     (row_start + row_num > gt.nrows) ∨
     (col_start + col_num > gt.ncols) ∨
     (row_num * col_num = 0) then some (gt, [])
  else
    (GTM_updateBlock_tasks gt row_start row_num col_start col_num
        src_buf src_buf_ld).foldlM
      (fun st t =>
        if t.need_to_fetch = true then
          let r := GTM_updateBlock_step st.1 op src_buf_ld access_mode t
          some (r.1, st.2 ++ r.2)
        else none)
      (gt, ([] : List Event))

/-- Embedding of `GTM_putBlock` (lines 181-189). -/
def GTM_putBlock (gt : GTMatrix)
    (row_start row_num col_start col_num src_buf src_buf_ld : Int) :
    Option (GTMatrix × List Event) :=
  GTM_updateBlock gt MPIOp.replace row_start row_num col_start col_num
    src_buf src_buf_ld AccessMode.blocking

/-- Embedding of `GTM_accumulateBlock` (lines 192-200). -/
def GTM_accumulateBlock (gt : GTMatrix)
    (row_start row_num col_start col_num src_buf src_buf_ld : Int) :
    Option (GTMatrix × List Event) :=
  GTM_updateBlock gt MPIOp.sum row_start row_num col_start col_num
    src_buf src_buf_ld AccessMode.blocking

/-- Embedding of `GTM_addPutBlockRequest` (lines 203-211). -/
def GTM_addPutBlockRequest (gt : GTMatrix)
    (row_start row_num col_start col_num src_buf src_buf_ld : Int) :
    Option (GTMatrix × List Event) :=
  GTM_updateBlock gt MPIOp.replace row_start row_num col_start col_num
    src_buf src_buf_ld AccessMode.batch

/-- Embedding of `GTM_addAccumulateBlockRequest` (lines 214-222). -/
def GTM_addAccumulateBlockRequest (gt : GTMatrix)
    (row_start row_num col_start col_num src_buf src_buf_ld : Int) :
    Option (GTMatrix × List Event) :=
  GTM_updateBlock gt MPIOp.sum row_start row_num col_start col_num
    src_buf src_buf_ld AccessMode.batch

/-- Embedding of `GTM_startBatchUpdate` (lines 225-232): early return while a
batch-get epoch is open; otherwise reset every destination's queue and set
the batch-updating flag. -/
def GTM_startBatchUpdate (gt : GTMatrix) : GTMatrix :=
  if gt.is_batch_getting then gt
  else
    let gt1 := (List.range gt.comm_size).foldl GTM_resetReqVector gt
    { gt1 with is_batch_updating := true }

/-- One iteration of the drain loop of `GTM_execBatchUpdate`
(lines 239-265), at loop counter `_dst_rank` (running from `my_rank` to
`my_rank + comm_size - 1`): if the destination's queue is non-empty, lock
it, replay every entry via `GTM_updateBlockToProcess`, unlock; then reset
the queue unconditionally. -/
def GTM_execBatchUpdate_step (st : GTMatrix × List Event) (dstRankRaw : Nat) :
    GTMatrix × List Event :=
  let g := st.1
  let dst_rank := dstRankRaw % g.comm_size
  let req_vec := g.req_vec dst_rank
  let evs :=
    if req_vec.length > 0 then
      st.2 ++ [Event.winLock dst_rank] ++
      (req_vec.flatMap (fun e =>
        GTM_updateBlockToProcessEvents g dst_rank e.op e.row_start e.row_num
          e.col_start e.col_num e.src_buf e.src_buf_ld)) ++
      [Event.winUnlock dst_rank]
    else st.2
  (GTM_resetReqVector g dst_rank, evs)

/-- Embedding of `GTM_execBatchUpdate` (lines 235-266): no-op when the
batch-updating flag is clear; otherwise drain destinations in rank order
starting at the caller's own rank, wrapping modulo the group size. -/
def GTM_execBatchUpdate (gt : GTMatrix) : GTMatrix × List Event :=
  if gt.is_batch_updating = false then (gt, [])
  else
    (List.range' gt.my_rank gt.comm_size).foldl GTM_execBatchUpdate_step
      (gt, ([] : List Event))

/-- Embedding of `GTM_stopBatchUpdate` (lines 269-273). -/
def GTM_stopBatchUpdate (gt : GTMatrix) : GTMatrix :=
  if gt.is_batch_updating = false then gt
  else { gt with is_batch_updating := false }

/-- Cell (r, c) lies in the closed sub-rectangle carried by a route task. -/
def RouteTask.covers (t : RouteTask) (r c : Int) : Prop :=
  t.blk_r_s ≤ r ∧ r ≤ t.blk_r_e ∧ t.blk_c_s ≤ c ∧ c ≤ t.blk_c_e

/-- The request entry a route task enqueues in BATCH_ACCESS mode. -/
def RouteTask.entry (t : RouteTask) (op : MPIOp) (src_buf_ld : Int) : ReqEntry :=
  { op := op
    row_start := t.blk_r_s
    row_num := t.blk_r_e - t.blk_r_s + 1
    col_start := t.blk_c_s
    col_num := t.blk_c_e - t.blk_c_s + 1
    src_buf := t.blk_ptr
    src_buf_ld := src_buf_ld }

/-- The 10 x 10 matrix over a 4 x 4 block grid with row boundaries
{0,1,4,6,10} and column boundaries {0,2,5,7,10}, as in the repository's
test program (test_Symmetrize.c), viewed from rank 5. -/
def gtEx : GTMatrix :=
  { nrows := 10
    ncols := 10
    r_blocks := 4
    c_blocks := 4
    r_displs := fun i => ([0, 1, 4, 6, 10] : List Int).getD i 0
    c_displs := fun i => ([0, 2, 5, 7, 10] : List Int).getD i 0
    ld_local := 10
    unit_size := 8
    comm_size := 16
    my_rank := 5
    req_vec := fun _ => []
    is_batch_updating := false
    is_batch_getting := false }

/-- A sample queued request entry. -/
def reqEx : ReqEntry :=
  { op := MPIOp.sum, row_start := 1, row_num := 2, col_start := 2, col_num := 3
    src_buf := 0, src_buf_ld := 3 }

/-- Handle `gtEx` with a batch-update epoch open and one request queued for rank 0:
input for the claim that `GTM_startBatchUpdate` is a no-op while the
batch-update epoch is already open. -/
def gtOpenQueued : GTMatrix :=
  { gtEx with is_batch_updating := true
              req_vec := fun r => if r = 0 then [reqEx] else [] }

/-- Handle `gtOpenQueued` with a batch-get epoch open instead of a batch-update
epoch. -/
def gtGetting : GTMatrix :=
  { gtOpenQueued with is_batch_updating := false, is_batch_getting := true }

/-- The queue table after resetting the queues of every rank in `vs`. -/
def resetOn (q : Nat → List ReqEntry) (vs : List Nat) : Nat → List ReqEntry :=
  fun r => if r ∈ vs then [] else q r

/-- The transport trace `GTM_execBatchUpdate` produces for one destination
rank: nothing for an empty queue; otherwise one lock, the replay traces of
the queued entries in enqueue order, one unlock. -/
def execTraceFor (gt : GTMatrix) (dst_rank : Nat) : List Event :=
  if (gt.req_vec dst_rank).length > 0 then
    [Event.winLock dst_rank] ++
    ((gt.req_vec dst_rank).flatMap (fun e =>
      GTM_updateBlockToProcessEvents gt dst_rank e.op e.row_start e.row_num
        e.col_start e.col_num e.src_buf e.src_buf_ld)) ++
    [Event.winUnlock dst_rank]
  else []

/-- The partition-map invariant (established at matrix construction): the
displacement table is strictly increasing on block indices and spans
[0, dim] exactly. -/
abbrev displsOK (d : Nat → Int) (n : Nat) (dim : Int) : Prop :=
  (∀ k, k < n → d k < d (k + 1)) ∧ d 0 = 0 ∧ d n = dim

/-- The rectangle given by start coordinates and extents lies inside the
half-open box [0, nr) x [0, nc) cell by cell. -/
def rectInBounds (rs rn cs cn nr nc : Int) : Prop :=
  ∀ r c : Int, rs ≤ r → r < rs + rn → cs ≤ c → c < cs + cn →
    0 ≤ r ∧ r < nr ∧ 0 ≤ c ∧ c < nc

/-- The rectangle given by start coordinates and extents lies cell by cell
inside the half-open region [rlo, rhi) x [clo, chi). -/
def rectInRegion (rs rn cs cn rlo rhi clo chi : Int) : Prop :=
  ∀ r c : Int, rs ≤ r → r < rs + rn → cs ≤ c → c < cs + cn →
    rlo ≤ r ∧ r < rhi ∧ clo ≤ c ∧ c < chi

/- ------------------------------------------------------------------ -/
/- Block-location lemmas: the owning-block search loops.               -/
/- ------------------------------------------------------------------ -/

theorem lastBlkContaining_succ (d : Nat → Int) (n : Nat) (x : Int) :
    lastBlkContaining d (n + 1) x =
      if d n ≤ x ∧ x < d (n + 1) then some n else lastBlkContaining d n x := by
  unfold lastBlkContaining
  rw [List.range_succ, List.foldl_append]
  simp

theorem displs_le_of_le (d : Nat → Int) (n : Nat)
    (hmono : ∀ k, k < n → d k < d (k + 1)) :
    ∀ a b, a ≤ b → b ≤ n → d a ≤ d b := by
  intro a b hab hbn
  induction b with
  | zero =>
      have : a = 0 := Nat.le_zero.mp hab
      simp [this]
  | succ m ih =>
      rcases Nat.lt_or_ge a (m + 1) with h | h
      · have ham : a ≤ m := Nat.lt_succ_iff.mp h
        have h1 := ih ham (Nat.le_of_succ_le hbn)
        exact le_trans h1 (le_of_lt (hmono m (Nat.lt_of_succ_le hbn)))
      · have : a = m + 1 := le_antisymm hab h
        simp [this]

theorem lastBlkContaining_eq_some (d : Nat → Int) (x : Int) :
    ∀ n : Nat, (∀ k, k < n → d k < d (k + 1)) →
    ∀ i, i < n → d i ≤ x → x < d (i + 1) →
    lastBlkContaining d n x = some i := by
  intro n
  induction n with
  | zero => intro _ i hi; exact absurd hi (Nat.not_lt_zero i)
  | succ m ih =>
      intro hmono i hi h1 h2
      rw [lastBlkContaining_succ]
      by_cases hc : d m ≤ x ∧ x < d (m + 1)
      · rw [if_pos hc]
        have him : i = m := by
          by_contra hne
          have hlt : i < m := Nat.lt_of_le_of_ne (Nat.lt_succ_iff.mp hi) hne
          have hle : d (i + 1) ≤ d m :=
            displs_le_of_le d (m + 1) hmono (i + 1) m hlt (Nat.le_succ m)
          exact absurd (lt_of_lt_of_le h2 (le_trans hle hc.1)) (lt_irrefl x)
        rw [him]
      · rw [if_neg hc]
        have him : i < m := by
          rcases Nat.lt_succ_iff_lt_or_eq.mp hi with h | h
          · exact h
          · exact absurd ⟨h ▸ h1, h ▸ h2⟩ hc
        exact ih (fun k hk => hmono k (Nat.lt_succ_of_lt hk)) i him h1 h2

theorem exists_blkContaining (d : Nat → Int) (x : Int) :
    ∀ n : Nat, (∀ k, k < n → d k < d (k + 1)) →
    d 0 ≤ x → x < d n → ∃ i, i < n ∧ d i ≤ x ∧ x < d (i + 1) := by
  intro n
  induction n with
  | zero => intro _ h1 h2; exact absurd (lt_of_le_of_lt h1 h2) (lt_irrefl _)
  | succ m ih =>
      intro hmono h1 h2
      by_cases hc : d m ≤ x
      · exact ⟨m, Nat.lt_succ_self m, hc, h2⟩
      · obtain ⟨i, hi, ha, hb⟩ :=
          ih (fun k hk => hmono k (Nat.lt_succ_of_lt hk)) h1 (lt_of_not_le hc)
        exact ⟨i, Nat.lt_succ_of_lt hi, ha, hb⟩

theorem blkContaining_unique (d : Nat → Int) (n : Nat)
    (hmono : ∀ k, k < n → d k < d (k + 1)) (x : Int) (i j : Nat)
    (hi : i < n) (hj : j < n)
    (h1 : d i ≤ x) (h2 : x < d (i + 1)) (h3 : d j ≤ x) (h4 : x < d (j + 1)) :
    i = j := by
  by_contra hne
  rcases Nat.lt_or_ge i j with h | h
  · have hle : d (i + 1) ≤ d j := displs_le_of_le d n hmono (i + 1) j h (le_of_lt hj)
    exact absurd (lt_of_lt_of_le h2 (le_trans hle h3)) (lt_irrefl x)
  · have hji : j < i := lt_of_le_of_ne h (fun e => hne e.symm)
    have hle : d (j + 1) ≤ d i := displs_le_of_le d n hmono (j + 1) i hji (le_of_lt hi)
    exact absurd (lt_of_lt_of_le h4 (le_trans hle h1)) (lt_irrefl x)

/-- Combined facts about the start and end block indices located for a
1-D coordinate range [xs, xe] inside a well-formed displacement table. -/
theorem located_blocks (d : Nat → Int) (n : Nat) (dim : Int)
    (hd : displsOK d n dim) (xs xe : Int)
    (h0 : 0 ≤ xs) (hse : xs ≤ xe) (he : xe < dim) :
    ∃ s e, lastBlkContaining d n xs = some s ∧
      lastBlkContaining d n xe = some e ∧
      s < n ∧ e < n ∧ s ≤ e ∧
      d s ≤ xs ∧ xs < d (s + 1) ∧ d e ≤ xe ∧ xe < d (e + 1) := by
  obtain ⟨hmono, hz, hdim⟩ := hd
  obtain ⟨s, hs, hs1, hs2⟩ :=
    exists_blkContaining d xs n hmono (by rw [hz]; exact h0)
      (by rw [hdim]; exact lt_of_le_of_lt hse he)
  obtain ⟨e, hen, he1, he2⟩ :=
    exists_blkContaining d xe n hmono (by rw [hz]; exact le_trans h0 hse)
      (by rw [hdim]; exact he)
  refine ⟨s, e, lastBlkContaining_eq_some d xs n hmono s hs hs1 hs2,
    lastBlkContaining_eq_some d xe n hmono e hen he1 he2, hs, hen, ?_, hs1, hs2, he1, he2⟩
  by_contra hlt
  have h : e < s := lt_of_not_le hlt
  have hle : d (e + 1) ≤ d s := displs_le_of_le d n hmono (e + 1) s h (le_of_lt hs)
  exact absurd (lt_of_lt_of_le (lt_of_le_of_lt hse he2) (le_trans hle hs1))
    (lt_irrefl xs)

/-- A block index between the located start and end blocks meets the
coordinate range: the four inequalities behind a non-empty intersection. -/
theorem blk_range_meets (d : Nat → Int) (n : Nat)
    (hmono : ∀ k, k < n → d k < d (k + 1)) (xs xe : Int) (s e : Nat)
    (hen : e < n) (hs1 : d s ≤ xs) (hs2 : xs < d (s + 1))
    (he1 : d e ≤ xe) (hse : xs ≤ xe)
    (b : Nat) (hsb : s ≤ b) (hbe : b ≤ e) :
    d b ≤ xe ∧ xs ≤ d (b + 1) - 1 ∧ d b ≤ d (b + 1) - 1 := by
  have hbn : b < n := Nat.lt_of_le_of_lt hbe hen
  refine ⟨?_, ?_, ?_⟩
  · exact le_trans (displs_le_of_le d n hmono b e hbe (le_of_lt hen)) he1
  · have h1 : d (s + 1) ≤ d (b + 1) :=
      displs_le_of_le d n hmono (s + 1) (b + 1) (Nat.succ_le_succ hsb)
        (Nat.succ_le_of_lt hbn)
    omega
  · have h2 := hmono b hbn
    omega

/-- A coordinate inside [xs, xe] belongs to a unique block, and that block
lies between the located start and end blocks. -/
theorem cell_blk (d : Nat → Int) (n : Nat) (dim : Int)
    (hd : displsOK d n dim) (xs xe : Int)
    (h0 : 0 ≤ xs) (he : xe < dim) (s e : Nat) (hsn : s ≤ n)
    (hs1 : d s ≤ xs) (he2 : xe < d (e + 1))
    (x : Int) (hx1 : xs ≤ x) (hx2 : x ≤ xe) :
    ∃ b, s ≤ b ∧ b ≤ e ∧ d b ≤ x ∧ x < d (b + 1) := by
  obtain ⟨hmono, hz, hdim⟩ := hd
  obtain ⟨b, hbn, hb1, hb2⟩ :=
    exists_blkContaining d x n hmono (by rw [hz]; exact le_trans h0 hx1)
      (by rw [hdim]; exact lt_of_le_of_lt hx2 he)
  refine ⟨b, ?_, ?_, hb1, hb2⟩
  · by_contra hlt
    have h : b < s := lt_of_not_le hlt
    have hle : d (b + 1) ≤ d s := displs_le_of_le d n hmono (b + 1) s h hsn
    exact absurd (lt_of_lt_of_le hb2 (le_trans hle (le_trans hs1 hx1))) (lt_irrefl x)
  · by_contra hlt
    have h : e < b := lt_of_not_le hlt
    have hle : d (e + 1) ≤ d b :=
      displs_le_of_le d n hmono (e + 1) b h (le_of_lt hbn)
    exact absurd (lt_of_le_of_lt hx2 (lt_of_lt_of_le he2 (le_trans hle hb1)))
      (lt_irrefl x)

/- ------------------------------------------------------------------ -/
/- Routing-loop lemmas.                                                -/
/- ------------------------------------------------------------------ -/

/-- Membership in the routing task list, once the four block-search loops
are known to locate concrete block indices. -/
theorem mem_tasks_iff (gt : GTMatrix)
    (row_start row_num col_start col_num src_buf src_buf_ld : Int)
    (sR eR sC eC : Nat)
    (hsR : lastBlkContaining gt.r_displs gt.r_blocks row_start = some sR)
    (heR : lastBlkContaining gt.r_displs gt.r_blocks (row_start + row_num - 1) = some eR)
    (hsC : lastBlkContaining gt.c_displs gt.c_blocks col_start = some sC)
    (heC : lastBlkContaining gt.c_displs gt.c_blocks (col_start + col_num - 1) = some eC)
    (t : RouteTask) :
    t ∈ GTM_updateBlock_tasks gt row_start row_num col_start col_num
        src_buf src_buf_ld ↔
      ∃ br bc : Nat, sR ≤ br ∧ br ≤ eR ∧ sC ≤ bc ∧ bc ≤ eC ∧
        t = routeTaskFor gt row_start (row_start + row_num - 1)
              col_start (col_start + col_num - 1) src_buf src_buf_ld br bc := by
  unfold GTM_updateBlock_tasks
  simp only [hsR, heR, hsC, heC, Option.getD_some, List.mem_flatMap,
    List.mem_map, List.mem_range]
  constructor
  · rintro ⟨br, ⟨k, hk, rfl⟩, ⟨bc, ⟨k2, hk2, rfl⟩, rfl⟩⟩
    exact ⟨sR + k, sC + k2, Nat.le_add_right _ _, by omega,
      Nat.le_add_right _ _, by omega, rfl⟩
  · rintro ⟨br, bc, h1, h2, h3, h4, rfl⟩
    exact ⟨br, ⟨br - sR, by omega, by omega⟩, ⟨bc, ⟨bc - sC, by omega, by omega⟩, rfl⟩⟩

/-- Unfolded fields of one routing-loop iteration. -/
theorem routeTaskFor_fields (gt : GTMatrix)
    (row_start row_end col_start col_end src_buf src_buf_ld : Int)
    (br bc : Nat) :
    routeTaskFor gt row_start row_end col_start col_end src_buf src_buf_ld br bc =
      { dst_rank := br * gt.c_blocks + bc
        need_to_fetch :=
          decide (max (gt.r_displs br) row_start ≤ min (gt.r_displs (br + 1) - 1) row_end) &&
          decide (max (gt.c_displs bc) col_start ≤ min (gt.c_displs (bc + 1) - 1) col_end)
        blk_r_s := max (gt.r_displs br) row_start
        blk_r_e := min (gt.r_displs (br + 1) - 1) row_end
        blk_c_s := max (gt.c_displs bc) col_start
        blk_c_e := min (gt.c_displs (bc + 1) - 1) col_end
        blk_ptr := src_buf + ((max (gt.r_displs br) row_start - row_start) * src_buf_ld +
          (max (gt.c_displs bc) col_start - col_start)) * gt.unit_size } := by
  rfl

/-- Recovering the block-row and block-column indices from a destination
rank computed as `blk_r * c_blocks + blk_c`. -/
theorem dst_rank_div_mod (cb : Nat) (br bc : Nat) (hbc : bc < cb) :
    (br * cb + bc) / cb = br ∧ (br * cb + bc) % cb = bc := by
  have hcb : 0 < cb := Nat.lt_of_le_of_lt (Nat.zero_le bc) hbc
  constructor
  · rw [Nat.mul_comm br cb, Nat.mul_add_div hcb, Nat.div_eq_of_lt hbc, Nat.add_zero]
  · rw [Nat.mul_comm br cb, Nat.mul_add_mod, Nat.mod_eq_of_lt hbc]

/-- Every routing-loop iteration of an in-bounds, non-empty rectangle has a
non-empty intersection with its owner's region. -/
theorem tasks_need_to_fetch (gt : GTMatrix)
    (row_start row_num col_start col_num src_buf src_buf_ld : Int)
    (hr : displsOK gt.r_displs gt.r_blocks gt.nrows)
    (hc : displsOK gt.c_displs gt.c_blocks gt.ncols)
    (h1 : 0 ≤ row_start) (h2 : 0 < row_num) (h3 : row_start + row_num ≤ gt.nrows)
    (h4 : 0 ≤ col_start) (h5 : 0 < col_num) (h6 : col_start + col_num ≤ gt.ncols) :
    ∀ t ∈ GTM_updateBlock_tasks gt row_start row_num col_start col_num
        src_buf src_buf_ld,
      t.need_to_fetch = true ∧ t.blk_r_s ≤ t.blk_r_e ∧ t.blk_c_s ≤ t.blk_c_e := by
  obtain ⟨sR, eR, hsR, heR, hsRn, heRn, hsRe, hrs1, hrs2, hre1, hre2⟩ :=
    located_blocks gt.r_displs gt.r_blocks gt.nrows hr row_start
      (row_start + row_num - 1) h1 (by omega) (by omega)
  obtain ⟨sC, eC, hsC, heC, hsCn, heCn, hsCe, hcs1, hcs2, hce1, hce2⟩ :=
    located_blocks gt.c_displs gt.c_blocks gt.ncols hc col_start
      (col_start + col_num - 1) h4 (by omega) (by omega)
  intro t ht
  rw [mem_tasks_iff gt _ _ _ _ _ _ sR eR sC eC hsR heR hsC heC] at ht
  obtain ⟨br, bc, hbr1, hbr2, hbc1, hbc2, rfl⟩ := ht
  obtain ⟨a1, a2, a3⟩ :=
    blk_range_meets gt.r_displs gt.r_blocks hr.1 row_start
      (row_start + row_num - 1) sR eR heRn hrs1 hrs2 hre1 (by omega) br hbr1 hbr2
  obtain ⟨b1, b2, b3⟩ :=
    blk_range_meets gt.c_displs gt.c_blocks hc.1 col_start
      (col_start + col_num - 1) sC eC heCn hcs1 hcs2 hce1 (by omega) bc hbc1 hbc2
  rw [routeTaskFor_fields]
  refine ⟨?_, by simp only; omega, by simp only; omega⟩
  simp only [Bool.and_eq_true, decide_eq_true_eq]
  exact ⟨by omega, by omega⟩

/-- When every task passes the intersection assertion, the effectful fold of
`GTM_updateBlock` does not abort and equals the corresponding pure fold. -/
theorem updateBlock_foldlM_eq (op : MPIOp) (src_buf_ld : Int)
    (access_mode : AccessMode) :
    ∀ l : List RouteTask, (∀ t ∈ l, t.need_to_fetch = true) →
    ∀ st : GTMatrix × List Event,
      (l.foldlM (fun st t =>
          if t.need_to_fetch = true then
            let r := GTM_updateBlock_step st.1 op src_buf_ld access_mode t
            some (r.1, st.2 ++ r.2)
          else none) st : Option (GTMatrix × List Event)) =
      some (l.foldl (fun st t =>
          let r := GTM_updateBlock_step st.1 op src_buf_ld access_mode t
          (r.1, st.2 ++ r.2)) st) := by
  intro l
  induction l with
  | nil => intro _ st; rfl
  | cons t l ih =>
      intro h st
      have ht := h t (List.mem_cons_self t l)
      simp only [List.foldlM_cons, List.foldl_cons, ht, if_true]
      exact ih (fun u hu => h u (List.mem_cons_of_mem t hu)) _

/-- On a rectangle passing the bounds guard whose every routing-loop
iteration passes the intersection assertion, `GTM_updateBlock` completes
and is the pure fold over its routing tasks. -/
theorem GTM_updateBlock_eq_of_valid (gt : GTMatrix) (op : MPIOp)
    (row_start row_num col_start col_num src_buf src_buf_ld : Int)
    (access_mode : AccessMode)
    (hguard : ¬((row_start < 0) ∨ (col_start < 0) ∨
       (row_start + row_num > gt.nrows) ∨ (col_start + col_num > gt.ncols) ∨
       (row_num * col_num = 0)))
    (hfetch : ∀ t ∈ GTM_updateBlock_tasks gt row_start row_num col_start
        col_num src_buf src_buf_ld, t.need_to_fetch = true) :
    GTM_updateBlock gt op row_start row_num col_start col_num src_buf
        src_buf_ld access_mode =
      some ((GTM_updateBlock_tasks gt row_start row_num col_start col_num
          src_buf src_buf_ld).foldl (fun st t =>
            let r := GTM_updateBlock_step st.1 op src_buf_ld access_mode t
            (r.1, st.2 ++ r.2)) (gt, ([] : List Event))) := by
  unfold GTM_updateBlock
  rw [if_neg hguard]
  exact updateBlock_foldlM_eq op src_buf_ld access_mode _ hfetch _

/-- The bounds guard of `GTM_updateBlock` is false on an in-bounds,
non-empty rectangle. -/
theorem updateBlock_guard_false (gt : GTMatrix)
    (row_start row_num col_start col_num : Int)
    (h1 : 0 ≤ row_start) (h2 : 0 < row_num) (h3 : row_start + row_num ≤ gt.nrows)
    (h4 : 0 ≤ col_start) (h5 : 0 < col_num) (h6 : col_start + col_num ≤ gt.ncols) :
    ¬((row_start < 0) ∨ (col_start < 0) ∨
      (row_start + row_num > gt.nrows) ∨ (col_start + col_num > gt.ncols) ∨
      (row_num * col_num = 0)) := by
  have hp : 0 < row_num * col_num := mul_pos h2 h5
  simp only [not_or]
  exact ⟨by omega, by omega, by omega, by omega, hp.ne'⟩

/-- C8: for every in-bounds, non-empty rectangle and every
(rowBlock, colBlock) pair in the owning-block range computed from the
rectangle's corners, the intersection of that owner's region with the
rectangle is non-empty, so the fatal assertion `assert(need_to_fetch == 1)`
in `GTM_updateBlock` never fires — the call completes in every access mode —
under the precondition that the displacement tables are strictly increasing
and span the matrix dimensions exactly. -/
theorem C8_assert_never_fires (gt : GTMatrix) (op : MPIOp)
    (row_start row_num col_start col_num src_buf src_buf_ld : Int)
    (access_mode : AccessMode)
    (hr : displsOK gt.r_displs gt.r_blocks gt.nrows)
    (hc : displsOK gt.c_displs gt.c_blocks gt.ncols)
    (h1 : 0 ≤ row_start) (h2 : 0 < row_num) (h3 : row_start + row_num ≤ gt.nrows)
    (h4 : 0 ≤ col_start) (h5 : 0 < col_num) (h6 : col_start + col_num ≤ gt.ncols) :
    (∀ t ∈ GTM_updateBlock_tasks gt row_start row_num col_start col_num
        src_buf src_buf_ld, t.need_to_fetch = true) ∧
    (GTM_updateBlock gt op row_start row_num col_start col_num src_buf
        src_buf_ld access_mode).isSome = true := by
  have hf := tasks_need_to_fetch gt row_start row_num col_start col_num
    src_buf src_buf_ld hr hc h1 h2 h3 h4 h5 h6
  refine ⟨fun t ht => (hf t ht).1, ?_⟩
  rw [GTM_updateBlock_eq_of_valid gt op row_start row_num col_start col_num
    src_buf src_buf_ld access_mode
    (updateBlock_guard_false gt row_start row_num col_start col_num
      h1 h2 h3 h4 h5 h6)
    (fun t ht => (hf t ht).1)]
  rfl

/-- Witness for C8 at the test program's partition: the full 10 x 10
rectangle on `gtEx`. -/
theorem C8_assert_never_fires_witness :
    displsOK gtEx.r_displs gtEx.r_blocks gtEx.nrows ∧
    displsOK gtEx.c_displs gtEx.c_blocks gtEx.ncols ∧
    ((∀ t ∈ GTM_updateBlock_tasks gtEx 0 10 0 10 0 10,
        t.need_to_fetch = true) ∧
     (GTM_updateBlock gtEx MPIOp.sum 0 10 0 10 0 10
        AccessMode.blocking).isSome = true) :=
  ⟨by decide, by decide,
   C8_assert_never_fires gtEx MPIOp.sum 0 10 0 10 0 10 AccessMode.blocking
     (by decide) (by decide) (by decide) (by decide) (by decide)
     (by decide) (by decide) (by decide)⟩

/-- C1: for every in-bounds, non-empty rectangle passed to
`GTM_updateBlock`, the (destination rank, sub-rectangle) pairs produced by
the routing loop exactly partition the rectangle: a cell lies in the
rectangle iff some produced task covers it, any two produced tasks covering
a common cell are the same task, and every cell covered by a task lies in
the owned region of that task's destination rank. -/
theorem C1_updateBlock_tiling (gt : GTMatrix)
    (row_start row_num col_start col_num src_buf src_buf_ld : Int)
    (hr : displsOK gt.r_displs gt.r_blocks gt.nrows)
    (hc : displsOK gt.c_displs gt.c_blocks gt.ncols)
    (h1 : 0 ≤ row_start) (h2 : 0 < row_num) (h3 : row_start + row_num ≤ gt.nrows)
    (h4 : 0 ≤ col_start) (h5 : 0 < col_num) (h6 : col_start + col_num ≤ gt.ncols) :
    (∀ r c : Int,
       (row_start ≤ r ∧ r < row_start + row_num ∧
        col_start ≤ c ∧ c < col_start + col_num) ↔
       ∃ t ∈ GTM_updateBlock_tasks gt row_start row_num col_start col_num
           src_buf src_buf_ld, t.covers r c) ∧
    (∀ t1 ∈ GTM_updateBlock_tasks gt row_start row_num col_start col_num
        src_buf src_buf_ld,
     ∀ t2 ∈ GTM_updateBlock_tasks gt row_start row_num col_start col_num
        src_buf src_buf_ld,
     ∀ r c : Int, t1.covers r c → t2.covers r c → t1 = t2) ∧
    (∀ t ∈ GTM_updateBlock_tasks gt row_start row_num col_start col_num
        src_buf src_buf_ld,
     ∀ r c : Int, t.covers r c →
       gt.r_displs (t.dst_rank / gt.c_blocks) ≤ r ∧
       r < gt.r_displs (t.dst_rank / gt.c_blocks + 1) ∧
       gt.c_displs (t.dst_rank % gt.c_blocks) ≤ c ∧
       c < gt.c_displs (t.dst_rank % gt.c_blocks + 1)) := by
  obtain ⟨sR, eR, hsR, heR, hsRn, heRn, hsRe, hrs1, hrs2, hre1, hre2⟩ :=
    located_blocks gt.r_displs gt.r_blocks gt.nrows hr row_start
      (row_start + row_num - 1) h1 (by omega) (by omega)
  obtain ⟨sC, eC, hsC, heC, hsCn, heCn, hsCe, hcs1, hcs2, hce1, hce2⟩ :=
    located_blocks gt.c_displs gt.c_blocks gt.ncols hc col_start
      (col_start + col_num - 1) h4 (by omega) (by omega)
  have memiff := mem_tasks_iff gt row_start row_num col_start col_num
    src_buf src_buf_ld sR eR sC eC hsR heR hsC heC
  refine ⟨?_, ?_, ?_⟩
  · intro r c
    constructor
    · rintro ⟨hx1, hx2, hy1, hy2⟩
      obtain ⟨br, hbr1, hbr2, hb1, hb2⟩ :=
        cell_blk gt.r_displs gt.r_blocks gt.nrows hr row_start
          (row_start + row_num - 1) h1 (by omega) sR eR (le_of_lt hsRn)
          hrs1 hre2 r hx1 (by omega)
      obtain ⟨bc, hbc1, hbc2, hb3, hb4⟩ :=
        cell_blk gt.c_displs gt.c_blocks gt.ncols hc col_start
          (col_start + col_num - 1) h4 (by omega) sC eC (le_of_lt hsCn)
          hcs1 hce2 c hy1 (by omega)
      refine ⟨routeTaskFor gt row_start (row_start + row_num - 1) col_start
        (col_start + col_num - 1) src_buf src_buf_ld br bc,
        (memiff _).mpr ⟨br, bc, hbr1, hbr2, hbc1, hbc2, rfl⟩, ?_⟩
      simp only [routeTaskFor_fields, RouteTask.covers]
      refine ⟨by omega, by omega, by omega, by omega⟩
    · rintro ⟨t, ht, hcov⟩
      obtain ⟨br, bc, hbr1, hbr2, hbc1, hbc2, rfl⟩ := (memiff t).mp ht
      simp only [routeTaskFor_fields, RouteTask.covers] at hcov
      refine ⟨by omega, by omega, by omega, by omega⟩
  · intro t1 ht1 t2 ht2 r c hcov1 hcov2
    obtain ⟨br1, bc1, hbr11, hbr12, hbc11, hbc12, rfl⟩ := (memiff t1).mp ht1
    obtain ⟨br2, bc2, hbr21, hbr22, hbc21, hbc22, rfl⟩ := (memiff t2).mp ht2
    simp only [routeTaskFor_fields, RouteTask.covers] at hcov1 hcov2
    have hbrn1 : br1 < gt.r_blocks := lt_of_le_of_lt hbr12 heRn
    have hbrn2 : br2 < gt.r_blocks := lt_of_le_of_lt hbr22 heRn
    have hbcn1 : bc1 < gt.c_blocks := lt_of_le_of_lt hbc12 heCn
    have hbcn2 : bc2 < gt.c_blocks := lt_of_le_of_lt hbc22 heCn
    have e1 : br1 = br2 :=
      blkContaining_unique gt.r_displs gt.r_blocks hr.1 r br1 br2 hbrn1 hbrn2
        (by omega) (by omega) (by omega) (by omega)
    have e2 : bc1 = bc2 :=
      blkContaining_unique gt.c_displs gt.c_blocks hc.1 c bc1 bc2 hbcn1 hbcn2
        (by omega) (by omega) (by omega) (by omega)
    rw [e1, e2]
  · intro t ht r c hcov
    obtain ⟨br, bc, hbr1, hbr2, hbc1, hbc2, rfl⟩ := (memiff t).mp ht
    simp only [routeTaskFor_fields, RouteTask.covers] at hcov ⊢
    have hbc : bc < gt.c_blocks := lt_of_le_of_lt hbc2 heCn
    obtain ⟨hdiv, hmod⟩ := dst_rank_div_mod gt.c_blocks br bc hbc
    rw [hdiv, hmod]
    refine ⟨by omega, by omega, by omega, by omega⟩

/-- Witness for C1: a 3 x 4 rectangle at the origin of `gtEx`. -/
theorem C1_updateBlock_tiling_witness :
    displsOK gtEx.r_displs gtEx.r_blocks gtEx.nrows ∧
    displsOK gtEx.c_displs gtEx.c_blocks gtEx.ncols ∧
    ((∀ r c : Int, (0 ≤ r ∧ r < 0 + 3 ∧ 0 ≤ c ∧ c < 0 + 4) ↔
        ∃ t ∈ GTM_updateBlock_tasks gtEx 0 3 0 4 0 10, t.covers r c) ∧
     (∀ t1 ∈ GTM_updateBlock_tasks gtEx 0 3 0 4 0 10,
      ∀ t2 ∈ GTM_updateBlock_tasks gtEx 0 3 0 4 0 10,
      ∀ r c : Int, t1.covers r c → t2.covers r c → t1 = t2) ∧
     (∀ t ∈ GTM_updateBlock_tasks gtEx 0 3 0 4 0 10,
      ∀ r c : Int, t.covers r c →
        gtEx.r_displs (t.dst_rank / gtEx.c_blocks) ≤ r ∧
        r < gtEx.r_displs (t.dst_rank / gtEx.c_blocks + 1) ∧
        gtEx.c_displs (t.dst_rank % gtEx.c_blocks) ≤ c ∧
        c < gtEx.c_displs (t.dst_rank % gtEx.c_blocks + 1))) :=
  ⟨by decide, by decide,
   C1_updateBlock_tiling gtEx 0 3 0 4 0 10 (by decide) (by decide)
     (by decide) (by decide) (by decide) (by decide) (by decide) (by decide)⟩

/-- C6: a rectangle partially or fully outside the matrix's global bounds,
or of zero area (`row_num * col_num = 0`), makes `GTM_updateBlock` return
with no effect at all — state unchanged, empty transport trace, no error
signal; likewise `GTM_updateBlockToProcess` issues no transport call when
the rectangle is not entirely inside the destination rank's owned region or
has zero area. -/
theorem C6_invalid_rect_noop (gt : GTMatrix) (op : MPIOp)
    (row_start row_num col_start col_num src_buf src_buf_ld : Int)
    (access_mode : AccessMode) (dst_rank : Nat) :
    ((¬ rectInBounds row_start row_num col_start col_num gt.nrows gt.ncols ∨
        row_num * col_num = 0) →
      GTM_updateBlock gt op row_start row_num col_start col_num src_buf
        src_buf_ld access_mode = some (gt, [])) ∧
    ((¬ rectInRegion row_start row_num col_start col_num
        (gt.r_displs (dst_rank / gt.c_blocks))
        (gt.r_displs (dst_rank / gt.c_blocks + 1))
        (gt.c_displs (dst_rank % gt.c_blocks))
        (gt.c_displs (dst_rank % gt.c_blocks + 1)) ∨
        row_num * col_num = 0) →
      GTM_updateBlockToProcess gt dst_rank op row_start row_num col_start
        col_num src_buf src_buf_ld = none) := by
  constructor
  · intro hbad
    rcases hbad with hbad | hzero
    · by_cases hguard : (row_start < 0) ∨ (col_start < 0) ∨
        (row_start + row_num > gt.nrows) ∨ (col_start + col_num > gt.ncols) ∨
        (row_num * col_num = 0)
      · unfold GTM_updateBlock
        rw [if_pos hguard]
      · exfalso
        apply hbad
        simp only [not_or] at hguard
        intro r c a1 a2 a3 a4
        refine ⟨by omega, by omega, by omega, by omega⟩
    · unfold GTM_updateBlock
      rw [if_pos (Or.inr (Or.inr (Or.inr (Or.inr hzero))))]
  · intro hbad
    rcases hbad with hbad | hzero
    · by_cases hguard : (row_start < gt.r_displs (dst_rank / gt.c_blocks)) ∨
        (col_start < gt.c_displs (dst_rank % gt.c_blocks)) ∨
        (row_start + row_num > gt.r_displs (dst_rank / gt.c_blocks + 1)) ∨
        (col_start + col_num > gt.c_displs (dst_rank % gt.c_blocks + 1)) ∨
        (row_num * col_num = 0)
      · unfold GTM_updateBlockToProcess
        rw [if_pos hguard]
      · exfalso
        apply hbad
        simp only [not_or] at hguard
        intro r c a1 a2 a3 a4
        refine ⟨by omega, by omega, by omega, by omega⟩
    · unfold GTM_updateBlockToProcess
      rw [if_pos (Or.inr (Or.inr (Or.inr (Or.inr hzero))))]

/-- Witness for C6: a rectangle sticking out past the bottom of `gtEx`
(rows 5..11 of a 10-row matrix), and a rectangle outside rank 5's owned
region (rank 5 owns rows 1..3, columns 2..4). -/
theorem C6_invalid_rect_noop_witness :
    GTM_updateBlock gtEx MPIOp.sum 5 7 0 2 0 10 AccessMode.blocking =
      some (gtEx, []) ∧
    GTM_updateBlockToProcess gtEx 5 MPIOp.sum 0 2 2 3 0 3 = none :=
  ⟨(C6_invalid_rect_noop gtEx MPIOp.sum 5 7 0 2 0 10 AccessMode.blocking 5).1
     (Or.inl (fun h => absurd
       ((h 11 0 (by decide) (by decide) (by decide) (by decide)).2.1)
       (by decide))),
   (C6_invalid_rect_noop gtEx MPIOp.sum 0 2 2 3 0 3 AccessMode.blocking 5).2
     (Or.inl (fun h => absurd
       ((h 0 2 (by decide) (by decide) (by decide) (by decide)).1)
       (by decide)))⟩

/-- A completed `GTM_updateBlockToProcess` call contributes exactly one
MPI_Accumulate event to its trace. -/
theorem updateBlockToProcess_one_acc (gt : GTMatrix) (dst_rank : Nat)
    (op : MPIOp) (row_start row_num col_start col_num src_buf src_buf_ld : Int)
    (c : AccCall) (eph : List Descriptor)
    (h : GTM_updateBlockToProcess gt dst_rank op row_start row_num col_start
        col_num src_buf src_buf_ld = some (c, eph)) :
    (GTM_updateBlockToProcessEvents gt dst_rank op row_start row_num
        col_start col_num src_buf src_buf_ld).countP Event.isAcc = 1 := by
  unfold GTM_updateBlockToProcessEvents
  rw [h]
  have h1 : ∀ l : List Descriptor,
      (l.map Event.typeCommit).countP Event.isAcc = 0 := by
    intro l
    rw [List.countP_eq_zero]
    intro e he
    obtain ⟨d, _, rfl⟩ := List.mem_map.mp he
    simp [Event.isAcc]
  have h2 : ∀ l : List Descriptor,
      (l.map Event.typeFree).countP Event.isAcc = 0 := by
    intro l
    rw [List.countP_eq_zero]
    intro e he
    obtain ⟨d, _, rfl⟩ := List.mem_map.mp he
    simp [Event.isAcc]
  simp only [List.countP_append, h1, h2]
  rfl
/-- C7: for every valid (completing) call to `GTM_updateBlockToProcess`, the
destination local linear offset passed to the remote write equals
`(rowStart - regionRowStart) * localLeadingDim + (colStart - regionColStart)`,
where the region corners come from the displacement tables at the
destination rank's block-row and block-column indices. -/
theorem C7_dst_offset (gt : GTMatrix) (dst_rank : Nat) (op : MPIOp)
    (row_start row_num col_start col_num src_buf src_buf_ld : Int)
    (c : AccCall) (eph : List Descriptor)
    (h : GTM_updateBlockToProcess gt dst_rank op row_start row_num col_start
        col_num src_buf src_buf_ld = some (c, eph)) :
    c.dst_pos = (row_start - gt.r_displs (dst_rank / gt.c_blocks)) * gt.ld_local +
      (col_start - gt.c_displs (dst_rank % gt.c_blocks)) := by
  simp only [GTM_updateBlockToProcess] at h
  split at h
  · exact absurd h (by simp)
  · split at h
    · split at h
      · injection h with h1
        injection h1 with h2 h3
        subst h2
        rfl
      · split at h
        · injection h with h1
          injection h1 with h2 h3
          subst h2
          rfl
        · injection h with h1
          injection h1 with h2 h3
          subst h2
          rfl
    · injection h with h1
      injection h1 with h2 h3
      subst h2
      rfl

/-- Witness for C7: a 2 x 3 block at (1,2) sent to rank 5 of `gtEx`
(rank 5 owns rows [1,4), columns [2,5)), contiguous source. -/
theorem C7_dst_offset_witness :
    ({ src_ptr := 100, src_desc := Descriptor.sbNostride 18, dst_rank := 5,
       dst_pos := 0, dst_desc := Descriptor.sbStride 18,
       op := MPIOp.sum } : AccCall).dst_pos =
      (1 - gtEx.r_displs (5 / gtEx.c_blocks)) * gtEx.ld_local +
      (2 - gtEx.c_displs (5 % gtEx.c_blocks)) :=
  C7_dst_offset gtEx 5 MPIOp.sum 1 2 2 3 100 3
    { src_ptr := 100, src_desc := Descriptor.sbNostride 18, dst_rank := 5,
      dst_pos := 0, dst_desc := Descriptor.sbStride 18, op := MPIOp.sum }
    [] (by decide)

/-- C3: descriptor selection of `GTM_updateBlockToProcess`.  For a completing
call with both extents within the cached-shape ceiling: if the source
leading dimension equals the column count, the cached no-stride source
descriptor is paired with the cached strided destination descriptor and
nothing ephemeral is built; else if it equals the local leading dimension,
the cached strided destination descriptor is used on both sides; else one
ephemeral strided source descriptor is built and freed.  Above the ceiling
in either extent, two ephemeral strided descriptors are built and freed.
In every completing case exactly one remote accumulate-or-replace call is
issued. -/
theorem C3_descriptor_selection (gt : GTMatrix) (dst_rank : Nat) (op : MPIOp)
    (row_start row_num col_start col_num src_buf src_buf_ld : Int)
    (c : AccCall) (eph : List Descriptor)
    (h : GTM_updateBlockToProcess gt dst_rank op row_start row_num col_start
        col_num src_buf src_buf_ld = some (c, eph)) :
    ((row_num ≤ MPI_DT_SB_DIM_MAX ∧ col_num ≤ MPI_DT_SB_DIM_MAX) →
      ((col_num = src_buf_ld →
         c.src_desc = Descriptor.sbNostride
           ((row_num - 1) * MPI_DT_SB_DIM_MAX + (col_num - 1)) ∧
         c.dst_desc = Descriptor.sbStride
           ((row_num - 1) * MPI_DT_SB_DIM_MAX + (col_num - 1)) ∧
         eph = []) ∧
       (¬ col_num = src_buf_ld → gt.ld_local = src_buf_ld →
         c.src_desc = Descriptor.sbStride
           ((row_num - 1) * MPI_DT_SB_DIM_MAX + (col_num - 1)) ∧
         c.dst_desc = Descriptor.sbStride
           ((row_num - 1) * MPI_DT_SB_DIM_MAX + (col_num - 1)) ∧
         eph = []) ∧
       (¬ col_num = src_buf_ld → ¬ gt.ld_local = src_buf_ld →
         c.src_desc = Descriptor.vector row_num col_num src_buf_ld ∧
         c.dst_desc = Descriptor.sbStride
           ((row_num - 1) * MPI_DT_SB_DIM_MAX + (col_num - 1)) ∧
         eph = [Descriptor.vector row_num col_num src_buf_ld]))) ∧
    (¬ (row_num ≤ MPI_DT_SB_DIM_MAX ∧ col_num ≤ MPI_DT_SB_DIM_MAX) →
      c.src_desc = Descriptor.vector row_num col_num src_buf_ld ∧
      c.dst_desc = Descriptor.vector row_num col_num gt.ld_local ∧
      eph = [Descriptor.vector row_num col_num gt.ld_local,
             Descriptor.vector row_num col_num src_buf_ld]) ∧
    (GTM_updateBlockToProcessEvents gt dst_rank op row_start row_num
        col_start col_num src_buf src_buf_ld).countP Event.isAcc = 1 := by
  have hcount := updateBlockToProcess_one_acc gt dst_rank op row_start row_num
    col_start col_num src_buf src_buf_ld c eph h
  simp only [GTM_updateBlockToProcess] at h
  split at h
  · exact absurd h (by simp)
  · split at h
    next hsm =>
      split at h
      next hns =>
        injection h with h1
        injection h1 with h2 h3
        subst h2
        subst h3
        exact ⟨fun _ => ⟨fun _ => ⟨rfl, rfl, rfl⟩,
          fun hne => absurd hns hne, fun hne => absurd hns hne⟩,
          fun hlg => absurd hsm hlg, hcount⟩
      next hns =>
        split at h
        next hld =>
          injection h with h1
          injection h1 with h2 h3
          subst h2
          subst h3
          exact ⟨fun _ => ⟨fun he => absurd he hns,
            fun _ _ => ⟨rfl, rfl, rfl⟩, fun _ hne => absurd hld hne⟩,
            fun hlg => absurd hsm hlg, hcount⟩
        next hld =>
          injection h with h1
          injection h1 with h2 h3
          subst h2
          subst h3
          exact ⟨fun _ => ⟨fun he => absurd he hns,
            fun _ he => absurd he hld, fun _ _ => ⟨rfl, rfl, rfl⟩⟩,
            fun hlg => absurd hsm hlg, hcount⟩
    next hsm =>
      injection h with h1
      injection h1 with h2 h3
      subst h2
      subst h3
      exact ⟨fun hs => absurd hs hsm, fun _ => ⟨rfl, rfl, rfl⟩, hcount⟩

/-- Witness for C3: the contiguous-source cached case (2 x 3 block,
source leading dimension 3) on `gtEx`. -/
theorem C3_descriptor_selection_witness :
    (({ src_ptr := 100, src_desc := Descriptor.sbNostride 18, dst_rank := 5,
        dst_pos := 0, dst_desc := Descriptor.sbStride 18,
        op := MPIOp.sum } : AccCall).src_desc =
       Descriptor.sbNostride ((2 - 1) * MPI_DT_SB_DIM_MAX + (3 - 1)) ∧
     ({ src_ptr := 100, src_desc := Descriptor.sbNostride 18, dst_rank := 5,
        dst_pos := 0, dst_desc := Descriptor.sbStride 18,
        op := MPIOp.sum } : AccCall).dst_desc =
       Descriptor.sbStride ((2 - 1) * MPI_DT_SB_DIM_MAX + (3 - 1)) ∧
     ([] : List Descriptor) = []) ∧
    (GTM_updateBlockToProcessEvents gtEx 5 MPIOp.sum 1 2 2 3 100 3).countP
      Event.isAcc = 1 := by
  have h := C3_descriptor_selection gtEx 5 MPIOp.sum 1 2 2 3 100 3
    { src_ptr := 100, src_desc := Descriptor.sbNostride 18, dst_rank := 5,
      dst_pos := 0, dst_desc := Descriptor.sbStride 18, op := MPIOp.sum }
    [] (by decide)
  exact ⟨(h.1 (by decide)).1 (by decide), h.2.2⟩
/-- Folding `GTM_resetReqVector` over a list of ranks resets exactly those
ranks' queues. -/
theorem foldl_resetReqVector (vs : List Nat) :
    ∀ gt : GTMatrix, vs.foldl GTM_resetReqVector gt =
      { gt with req_vec := resetOn gt.req_vec vs } := by
  induction vs with
  | nil =>
      intro gt
      have hq : resetOn gt.req_vec [] = gt.req_vec := by
        funext r
        simp [resetOn]
      rw [List.foldl_nil, hq]
  | cons v vs ih =>
      intro gt
      rw [List.foldl_cons, ih]
      have hq : resetOn (GTM_resetReqVector gt v).req_vec vs =
          resetOn gt.req_vec (v :: vs) := by
        funext r
        simp only [resetOn, GTM_resetReqVector, List.mem_cons]
        by_cases h1 : r ∈ vs
        · simp [h1]
        · by_cases h2 : r = v <;> simp [h1, h2]
      rw [show (GTM_resetReqVector gt v) =
        { gt with req_vec := (GTM_resetReqVector gt v).req_vec } from rfl]
      simp only [hq]

/-- C10: while a batch-get epoch is open (`is_batch_getting` set),
`GTM_startBatchUpdate` returns immediately: the handle is unchanged — no
request queue is reset and the batch-updating flag is not set. -/
theorem C10_start_refused_during_batch_get (gt : GTMatrix)
    (h : gt.is_batch_getting = true) :
    GTM_startBatchUpdate gt = gt ∧
    (∀ r, (GTM_startBatchUpdate gt).req_vec r = gt.req_vec r) ∧
    (GTM_startBatchUpdate gt).is_batch_updating = gt.is_batch_updating := by
  have heq : GTM_startBatchUpdate gt = gt := by
    unfold GTM_startBatchUpdate
    rw [if_pos h]
  exact ⟨heq, fun r => by rw [heq], by rw [heq]⟩

/-- Witness for C10 on `gtGetting`. -/
theorem C10_start_refused_during_batch_get_witness :
    GTM_startBatchUpdate gtGetting = gtGetting ∧
    (∀ r, (GTM_startBatchUpdate gtGetting).req_vec r = gtGetting.req_vec r) ∧
    (GTM_startBatchUpdate gtGetting).is_batch_updating =
      gtGetting.is_batch_updating :=
  C10_start_refused_during_batch_get gtGetting rfl

/-- Counterexample to C4 as stated: on `gtOpenQueued` the batch-update
epoch is already Open, yet `GTM_startBatchUpdate` is not a no-op — it
clears rank 0's non-empty queue, because the early return tests only the
batch-get flag. -/
theorem C4_counterexample :
    gtOpenQueued.is_batch_updating = true ∧
    gtOpenQueued.req_vec 0 = [reqEx] ∧
    (GTM_startBatchUpdate gtOpenQueued).req_vec 0 = [] ∧
    GTM_startBatchUpdate gtOpenQueued ≠ gtOpenQueued :=
  ⟨rfl, rfl, by decide,
   fun h => absurd (congrArg (fun g => g.req_vec 0) h) (by decide)⟩

/-- C4 (amended): `GTM_startBatchUpdate` is a no-op exactly while a
batch-get epoch is open; otherwise — including when the batch-update epoch
is already Open — it resets every destination's request queue and sets the
batch-updating flag. -/
theorem C4_startBatchUpdate_amended (gt : GTMatrix) :
    (gt.is_batch_getting = true → GTM_startBatchUpdate gt = gt) ∧
    (gt.is_batch_getting = false →
      GTM_startBatchUpdate gt =
        { gt with
          req_vec := fun r => if r < gt.comm_size then [] else gt.req_vec r
          is_batch_updating := true }) := by
  constructor
  · intro h
    unfold GTM_startBatchUpdate
    rw [if_pos h]
  · intro h
    unfold GTM_startBatchUpdate
    rw [if_neg (by rw [h]; exact Bool.false_ne_true)]
    rw [foldl_resetReqVector]
    have hq : resetOn gt.req_vec (List.range gt.comm_size) =
        fun r => if r < gt.comm_size then [] else gt.req_vec r := by
      funext r
      simp [resetOn, List.mem_range]
    simp only [hq]

/-- Witness for the amended C4 on `gtOpenQueued` (batch-update epoch Open,
batch-get epoch closed). -/
theorem C4_startBatchUpdate_amended_witness :
    GTM_startBatchUpdate gtOpenQueued =
      { gtOpenQueued with
        req_vec := fun r => if r < gtOpenQueued.comm_size then []
                            else gtOpenQueued.req_vec r
        is_batch_updating := true } :=
  (C4_startBatchUpdate_amended gtOpenQueued).2 rfl

/-- Two loop counters of the drain loop never address the same destination:
the residues of `my_rank .. my_rank + comm_size - 1` are pairwise distinct. -/
theorem range'_mod_pairwise (s m : Nat) :
    List.Pairwise (fun a b => a % m ≠ b % m) (List.range' s m) := by
  rw [List.pairwise_iff_getElem]
  intro i j hi hj hij
  rw [List.length_range'] at hi hj
  rw [List.getElem_range', List.getElem_range']
  intro heq
  have h1 : (s + 1 * i) % m = (s + 1 * j) % m := heq
  have h2 : i % m = j % m := Nat.ModEq.add_left_cancel' s (by simpa using h1)
  rw [Nat.mod_eq_of_lt hi, Nat.mod_eq_of_lt hj] at h2
  omega

/-- The drain loop of `GTM_execBatchUpdate` visits exactly the destination
ranks `0 .. comm_size - 1`, each once. -/
theorem residues_mem_iff (s m r : Nat) :
    r ∈ (List.range' s m).map (fun d => d % m) ↔ r < m := by
  constructor
  · intro h
    obtain ⟨d, hd, rfl⟩ := List.mem_map.mp h
    have hm : 0 < m := by
      rcases Nat.eq_zero_or_pos m with h0 | h0
      · rw [h0] at hd
        exact absurd hd (by simp)
      · exact h0
    exact Nat.mod_lt d hm
  · intro hr
    have hm : 0 < m := Nat.lt_of_le_of_lt (Nat.zero_le r) hr
    have hnodup : ((List.range' s m).map (fun d => d % m)).Nodup :=
      List.pairwise_map.mpr (range'_mod_pairwise s m)
    have hlen : ((List.range' s m).map (fun d => d % m)).length = m := by
      simp
    have hsub : ((List.range' s m).map (fun d => d % m)).toFinset ⊆
        Finset.range m := by
      intro x hx
      rw [List.mem_toFinset] at hx
      obtain ⟨d, _, rfl⟩ := List.mem_map.mp hx
      exact Finset.mem_range.mpr (Nat.mod_lt d hm)
    have hcard : (Finset.range m).card ≤
        ((List.range' s m).map (fun d => d % m)).toFinset.card := by
      rw [Finset.card_range, List.toFinset_card_of_nodup hnodup, hlen]
    have heq := Finset.eq_of_subset_of_card_le hsub hcard
    have hmem : r ∈ ((List.range' s m).map (fun d => d % m)).toFinset := by
      rw [heq]
      exact Finset.mem_range.mpr hr
    exact List.mem_toFinset.mp hmem

/-- The function `GTM_updateBlockToProcess` never reads the request queues. -/
theorem updToProc_req_vec_irrel (gt : GTMatrix) (q : Nat → List ReqEntry)
    (dst_rank : Nat) (op : MPIOp) (rs rn cs cn sb sld : Int) :
    GTM_updateBlockToProcessEvents { gt with req_vec := q } dst_rank op
        rs rn cs cn sb sld =
      GTM_updateBlockToProcessEvents gt dst_rank op rs rn cs cn sb sld := rfl

/-- One drain-loop iteration, started from a partially reset handle whose
current destination is not yet reset: it emits that destination's trace and
resets its queue. -/
theorem execBatchUpdate_step_eq (gt0 : GTMatrix) (visited : List Nat)
    (evs : List Event) (d : Nat) (hnv : (d % gt0.comm_size) ∉ visited) :
    GTM_execBatchUpdate_step
        ({ gt0 with req_vec := resetOn gt0.req_vec visited }, evs) d =
      ({ gt0 with req_vec :=
           (resetOn gt0.req_vec (visited ++ [d % gt0.comm_size])) },
       evs ++ execTraceFor gt0 (d % gt0.comm_size)) := by
  have hrv : resetOn gt0.req_vec visited (d % gt0.comm_size) =
      gt0.req_vec (d % gt0.comm_size) := by
    simp [resetOn, hnv]
  have hq : (fun r => if r = d % gt0.comm_size then []
        else resetOn gt0.req_vec visited r) =
      resetOn gt0.req_vec (visited ++ [d % gt0.comm_size]) := by
    funext r
    simp only [resetOn, List.mem_append, List.mem_singleton]
    by_cases h1 : r = d % gt0.comm_size
    · simp [h1]
    · by_cases h2 : r ∈ visited <;> simp [h1, h2]
  unfold GTM_execBatchUpdate_step GTM_resetReqVector execTraceFor
  simp only [hrv, updToProc_req_vec_irrel, hq]
  by_cases hlen : (gt0.req_vec (d % gt0.comm_size)).length > 0
  · simp [hlen, List.append_assoc]
  · simp [hlen]

/-- Characterization of the drain fold of `GTM_execBatchUpdate` over any
suffix of loop counters with pairwise distinct residues. -/
theorem execBatchUpdate_fold (gt0 : GTMatrix) :
    ∀ ds : List Nat,
      List.Pairwise (fun a b => a % gt0.comm_size ≠ b % gt0.comm_size) ds →
    ∀ (visited : List Nat) (evs : List Event),
      (∀ d ∈ ds, (d % gt0.comm_size) ∉ visited) →
      ds.foldl GTM_execBatchUpdate_step
        ({ gt0 with req_vec := resetOn gt0.req_vec visited }, evs) =
      ({ gt0 with req_vec := (resetOn gt0.req_vec
           (visited ++ ds.map (fun d => d % gt0.comm_size))) },
       evs ++ ds.flatMap (fun d => execTraceFor gt0 (d % gt0.comm_size))) := by
  intro ds
  induction ds with
  | nil =>
      intro _ visited evs _
      simp
  | cons d ds ih =>
      intro hpw visited evs hdisj
      obtain ⟨hpw1, hpw2⟩ := List.pairwise_cons.mp hpw
      have hnv : (d % gt0.comm_size) ∉ visited :=
        hdisj d (List.mem_cons_self d ds)
      rw [List.foldl_cons, execBatchUpdate_step_eq gt0 visited evs d hnv]
      rw [ih hpw2 (visited ++ [d % gt0.comm_size])
        (evs ++ execTraceFor gt0 (d % gt0.comm_size)) ?hdisj]
      case hdisj =>
        intro u hu
        rw [List.mem_append, List.mem_singleton]
        rintro (h | h)
        · exact hdisj u (List.mem_cons_of_mem d hu) h
        · exact hpw1 u hu h.symm
      rw [List.append_assoc, List.singleton_append, List.append_assoc]
      rw [List.map_cons, List.flatMap_cons]

/-- The function `GTM_execBatchUpdate` is a no-op when the batch-updating flag is
clear. -/
theorem execBatchUpdate_not_open (gt : GTMatrix)
    (h : ¬ gt.is_batch_updating = true) :
    GTM_execBatchUpdate gt = (gt, []) := by
  unfold GTM_execBatchUpdate
  rw [if_pos (by revert h; cases gt.is_batch_updating <;> simp)]

/-- With the batch-update epoch Open, `GTM_execBatchUpdate` resets every
destination queue once, in rank order starting at the caller's own rank,
and emits exactly the per-destination drain traces in that order. -/
theorem execBatchUpdate_char (gt : GTMatrix) (h : gt.is_batch_updating = true) :
    GTM_execBatchUpdate gt =
      ({ gt with req_vec := (resetOn gt.req_vec
           ((List.range' gt.my_rank gt.comm_size).map
             (fun d => d % gt.comm_size))) },
       (List.range' gt.my_rank gt.comm_size).flatMap
         (fun d => execTraceFor gt (d % gt.comm_size))) := by
  have h0 : ({ gt with req_vec := resetOn gt.req_vec [] } : GTMatrix) = gt := by
    have hq : resetOn gt.req_vec [] = gt.req_vec := by
      funext r
      simp [resetOn]
    rw [hq]
  have hfold := execBatchUpdate_fold gt (List.range' gt.my_rank gt.comm_size)
    (range'_mod_pairwise gt.my_rank gt.comm_size) [] []
    (fun d _ => List.not_mem_nil _)
  rw [h0, List.nil_append, List.nil_append] at hfold
  unfold GTM_execBatchUpdate
  rw [if_neg (by rw [h]; simp)]
  exact hfold

/-- C2: `GTM_execBatchUpdate` is a no-op while the batch-update epoch is
not Open; with it Open, it visits destination ranks in increasing order
starting from the caller's own rank and wrapping around the group, and for
each destination with a non-empty queue emits exactly one lock, the replay
of every queued entry once, in enqueue order, via
`GTM_updateBlockToProcess`, then one unlock. -/
theorem C2_execBatchUpdate_order (gt : GTMatrix) :
    (¬ gt.is_batch_updating = true → GTM_execBatchUpdate gt = (gt, [])) ∧
    (gt.is_batch_updating = true →
      (GTM_execBatchUpdate gt).2 =
        (List.range' gt.my_rank gt.comm_size).flatMap
          (fun d => execTraceFor gt (d % gt.comm_size))) := by
  refine ⟨execBatchUpdate_not_open gt, fun h => ?_⟩
  rw [execBatchUpdate_char gt h]

/-- Witness for C2 on `gtOpenQueued` (epoch Open, one entry queued for
rank 0). -/
theorem C2_execBatchUpdate_order_witness :
    (GTM_execBatchUpdate gtOpenQueued).2 =
      (List.range' gtOpenQueued.my_rank gtOpenQueued.comm_size).flatMap
        (fun d => execTraceFor gtOpenQueued (d % gtOpenQueued.comm_size)) :=
  (C2_execBatchUpdate_order gtOpenQueued).2 rfl

/-- C9: when `GTM_execBatchUpdate` runs with the epoch Open, afterwards
every destination's queue is empty (reset whether or not it held entries),
queues beyond the group are untouched, the batch flags are unchanged (the
epoch is still Open) and no other handle state is modified; when the epoch
is not Open the call changes nothing. -/
theorem C9_execBatchUpdate_frame (gt : GTMatrix) :
    (¬ gt.is_batch_updating = true → GTM_execBatchUpdate gt = (gt, [])) ∧
    (gt.is_batch_updating = true →
      (∀ r, r < gt.comm_size → (GTM_execBatchUpdate gt).1.req_vec r = []) ∧
      (∀ r, ¬ r < gt.comm_size →
        (GTM_execBatchUpdate gt).1.req_vec r = gt.req_vec r) ∧
      (GTM_execBatchUpdate gt).1.is_batch_updating = true ∧
      (GTM_execBatchUpdate gt).1.is_batch_getting = gt.is_batch_getting ∧
      (GTM_execBatchUpdate gt).1.nrows = gt.nrows ∧
      (GTM_execBatchUpdate gt).1.ncols = gt.ncols ∧
      (GTM_execBatchUpdate gt).1.r_blocks = gt.r_blocks ∧
      (GTM_execBatchUpdate gt).1.c_blocks = gt.c_blocks ∧
      (GTM_execBatchUpdate gt).1.r_displs = gt.r_displs ∧
      (GTM_execBatchUpdate gt).1.c_displs = gt.c_displs ∧
      (GTM_execBatchUpdate gt).1.ld_local = gt.ld_local ∧
      (GTM_execBatchUpdate gt).1.unit_size = gt.unit_size ∧
      (GTM_execBatchUpdate gt).1.comm_size = gt.comm_size ∧
      (GTM_execBatchUpdate gt).1.my_rank = gt.my_rank) := by
  refine ⟨execBatchUpdate_not_open gt, fun h => ?_⟩
  rw [execBatchUpdate_char gt h]
  refine ⟨fun r hr => ?_, fun r hr => ?_, h, rfl, rfl, rfl, rfl, rfl, rfl,
    rfl, rfl, rfl, rfl, rfl⟩
  · simp only [resetOn]
    rw [if_pos ((residues_mem_iff gt.my_rank gt.comm_size r).mpr hr)]
  · simp only [resetOn]
    rw [if_neg (fun hmem =>
      hr ((residues_mem_iff gt.my_rank gt.comm_size r).mp hmem))]

/-- Witness for C9 on `gtOpenQueued`: rank 0's queue is drained and reset,
an out-of-group queue index is untouched, and the epoch stays Open. -/
theorem C9_execBatchUpdate_frame_witness :
    (GTM_execBatchUpdate gtOpenQueued).1.req_vec 0 = [] ∧
    (GTM_execBatchUpdate gtOpenQueued).1.req_vec 20 =
      gtOpenQueued.req_vec 20 ∧
    (GTM_execBatchUpdate gtOpenQueued).1.is_batch_updating = true := by
  have h := (C9_execBatchUpdate_frame gtOpenQueued).2 rfl
  exact ⟨h.1 0 (by decide), h.2.1 20 (by decide), h.2.2.1⟩

/-- The BATCH_ACCESS fold of `GTM_updateBlock` appends each task's request
entry to its destination's queue, in task order, and emits no transport
events. -/
theorem batch_fold_char (op : MPIOp) (src_buf_ld : Int) :
    ∀ (l : List RouteTask) (gt : GTMatrix) (evs : List Event),
      l.foldl (fun st t =>
          let r := GTM_updateBlock_step st.1 op src_buf_ld AccessMode.batch t
          (r.1, st.2 ++ r.2)) (gt, evs) =
      ({ gt with req_vec := (fun r => gt.req_vec r ++
           ((l.filter (fun t => t.dst_rank == r)).map
             (fun t => t.entry op src_buf_ld))) }, evs) := by
  intro l
  induction l with
  | nil =>
      intro gt evs
      have hq : (fun r => gt.req_vec r ++
          ((([] : List RouteTask).filter (fun t => t.dst_rank == r)).map
            (fun t => t.entry op src_buf_ld))) = gt.req_vec := by
        funext r
        simp
      rw [List.foldl_nil, hq]
  | cons t l ih =>
      intro gt evs
      rw [List.foldl_cons]
      show List.foldl _
        (GTM_pushToReqVector gt t.dst_rank (t.entry op src_buf_ld),
         evs ++ []) l = _
      rw [List.append_nil, ih]
      have hq : (fun r =>
          (GTM_pushToReqVector gt t.dst_rank (t.entry op src_buf_ld)).req_vec r ++
          ((l.filter (fun u => u.dst_rank == r)).map
            (fun u => u.entry op src_buf_ld))) =
        (fun r => gt.req_vec r ++
          (((t :: l).filter (fun u => u.dst_rank == r)).map
            (fun u => u.entry op src_buf_ld))) := by
        funext r
        simp only [GTM_pushToReqVector, List.filter_cons]
        by_cases hdr : t.dst_rank = r
        · subst hdr
          simp
        · have hbeq : (t.dst_rank == r) = false := by simpa using hdr
          have hdr2 : ¬ r = t.dst_rank := fun h => hdr h.symm
          simp [hdr, hdr2, hbeq]
      rw [show GTM_pushToReqVector gt t.dst_rank (t.entry op src_buf_ld) =
        { gt with req_vec :=
            (GTM_pushToReqVector gt t.dst_rank (t.entry op src_buf_ld)).req_vec }
        from rfl]
      simp only [hq]

/-- C5: a batch-mode update request on a valid rectangle is enqueued
regardless of the batch-epoch flags: for every value of the
batch-updating and batch-getting flags, `GTM_addPutBlockRequest` and
`GTM_addAccumulateBlockRequest` append the routed sub-block entries to the
destination queues (and touch nothing else), with the appended entries not
depending on the flags, and at least one entry is appended. -/
theorem C5_enqueue_not_gated (gt : GTMatrix) (bu bg : Bool)
    (row_start row_num col_start col_num src_buf src_buf_ld : Int)
    (hr : displsOK gt.r_displs gt.r_blocks gt.nrows)
    (hc : displsOK gt.c_displs gt.c_blocks gt.ncols)
    (h1 : 0 ≤ row_start) (h2 : 0 < row_num) (h3 : row_start + row_num ≤ gt.nrows)
    (h4 : 0 ≤ col_start) (h5 : 0 < col_num) (h6 : col_start + col_num ≤ gt.ncols) :
    GTM_addPutBlockRequest
        { gt with is_batch_updating := bu, is_batch_getting := bg }
        row_start row_num col_start col_num src_buf src_buf_ld =
      some ({ gt with
          req_vec := (fun r => gt.req_vec r ++
            (((GTM_updateBlock_tasks gt row_start row_num col_start col_num
                src_buf src_buf_ld).filter (fun t => t.dst_rank == r)).map
              (fun t => t.entry MPIOp.replace src_buf_ld)))
          is_batch_updating := bu
          is_batch_getting := bg }, []) ∧
    GTM_addAccumulateBlockRequest
        { gt with is_batch_updating := bu, is_batch_getting := bg }
        row_start row_num col_start col_num src_buf src_buf_ld =
      some ({ gt with
          req_vec := (fun r => gt.req_vec r ++
            (((GTM_updateBlock_tasks gt row_start row_num col_start col_num
                src_buf src_buf_ld).filter (fun t => t.dst_rank == r)).map
              (fun t => t.entry MPIOp.sum src_buf_ld)))
          is_batch_updating := bu
          is_batch_getting := bg }, []) ∧
    GTM_updateBlock_tasks gt row_start row_num col_start col_num src_buf
      src_buf_ld ≠ [] := by
  have htasks : GTM_updateBlock_tasks
      { gt with is_batch_updating := bu, is_batch_getting := bg }
      row_start row_num col_start col_num src_buf src_buf_ld =
    GTM_updateBlock_tasks gt row_start row_num col_start col_num src_buf
      src_buf_ld := rfl
  have hguard := updateBlock_guard_false
    { gt with is_batch_updating := bu, is_batch_getting := bg }
    row_start row_num col_start col_num h1 h2 h3 h4 h5 h6
  have hf : ∀ t ∈ GTM_updateBlock_tasks
      { gt with is_batch_updating := bu, is_batch_getting := bg }
      row_start row_num col_start col_num src_buf src_buf_ld,
      t.need_to_fetch = true :=
    fun t ht => (tasks_need_to_fetch
      { gt with is_batch_updating := bu, is_batch_getting := bg }
      row_start row_num col_start col_num src_buf src_buf_ld
      hr hc h1 h2 h3 h4 h5 h6 t ht).1
  refine ⟨?_, ?_, ?_⟩
  · unfold GTM_addPutBlockRequest
    rw [GTM_updateBlock_eq_of_valid _ MPIOp.replace row_start row_num
      col_start col_num src_buf src_buf_ld AccessMode.batch hguard hf]
    rw [htasks, batch_fold_char]
  · unfold GTM_addAccumulateBlockRequest
    rw [GTM_updateBlock_eq_of_valid _ MPIOp.sum row_start row_num
      col_start col_num src_buf src_buf_ld AccessMode.batch hguard hf]
    rw [htasks, batch_fold_char]
  · obtain ⟨sR, eR, hsR, heR, hsRn, heRn, hsRe, hrs1, hrs2, hre1, hre2⟩ :=
      located_blocks gt.r_displs gt.r_blocks gt.nrows hr row_start
        (row_start + row_num - 1) h1 (by omega) (by omega)
    obtain ⟨sC, eC, hsC, heC, hsCn, heCn, hsCe, hcs1, hcs2, hce1, hce2⟩ :=
      located_blocks gt.c_displs gt.c_blocks gt.ncols hc col_start
        (col_start + col_num - 1) h4 (by omega) (by omega)
    have hmem : routeTaskFor gt row_start (row_start + row_num - 1) col_start
        (col_start + col_num - 1) src_buf src_buf_ld sR sC ∈
        GTM_updateBlock_tasks gt row_start row_num col_start col_num src_buf
          src_buf_ld :=
      (mem_tasks_iff gt row_start row_num col_start col_num src_buf
        src_buf_ld sR eR sC eC hsR heR hsC heC _).mpr
        ⟨sR, sC, le_refl sR, hsRe, le_refl sC, hsCe, rfl⟩
    exact List.ne_nil_of_mem hmem

/-- Witness for C5: a 3 x 4 rectangle at the origin of `gtEx`, enqueued
while the batch-update flag is set. -/
theorem C5_enqueue_not_gated_witness :
    (GTM_addPutBlockRequest
        { gtEx with is_batch_updating := true, is_batch_getting := false }
        0 3 0 4 0 10).isSome = true ∧
    GTM_updateBlock_tasks gtEx 0 3 0 4 0 10 ≠ [] := by
  have h := C5_enqueue_not_gated gtEx true false 0 3 0 4 0 10
    (by decide) (by decide) (by decide) (by decide) (by decide) (by decide)
    (by decide) (by decide)
  refine ⟨?_, h.2.2⟩
  rw [h.1]
  rfl

end GTM
